import Mathlib

/-!
Verification development for the aircher decision core.

Each definition below is a shallow embedding of a function of the Python
source (src/aircher). Machine integers are modelled as Int/Nat, Python
floats as exact rationals, fallible calls as explicit case splits.
Relevance scores only ever act as sort keys, so pruning is parameterised
by an arbitrary score function into a linear order, which covers every
possible timing/relevance input.
-/

/-- Embeds `ContextItemType` (src/aircher/context/__init__.py). -/
inductive ContextItemType where
  | system_prompt
  | task_state
  | user_message
  | assistant_response
  | tool_result
  | code_snippet
  | knowledge_graph_query
  deriving DecidableEq

/-- Embeds `ContextItem`. The `content` payload (`BaseMessage | dict`) is
modelled by the string it is rendered to by `str(...)`, which is all
`_estimate_tokens` looks at; the uuid is modelled as a caller-supplied
natural number and the timestamp is folded into the abstract score. -/
structure ContextItem where
  id : Nat
  item_type : ContextItemType
  content : String
  token_cost : Int
  sticky : Bool
  task_id : Option String
  dependencies : List Nat
  relevance_score : ℚ
  deriving DecidableEq

/-- Embeds `ContextWindow`. The `memory` handle is dropped: its only use,
`_summarize_to_episodic`, swallows every failure and performs no state
change on the window. -/
structure ContextWindow where
  session_id : String
  current_task_id : Option String
  items : List ContextItem
  token_count : Int
  token_limit : Int
  pruning_threshold : ℚ
  pruning_count : Nat
  deriving DecidableEq

/-- Embeds `ContextWindow._estimate_tokens`: `len(str(content)) // 4`. -/
def estimate_tokens (content : String) : Int :=
  (content.length : Int) / 4

/-- Embeds `ContextWindow.should_prune`:
`token_count >= token_limit * pruning_threshold`. -/
def should_prune (w : ContextWindow) : Bool :=
  decide ((w.token_limit : ℚ) * w.pruning_threshold ≤ (w.token_count : ℚ))

/-- Embeds step 1 of `prune_context`: enumerate the items and keep the
non-sticky ones (`for idx, item in enumerate(self.items): if not item.sticky`). -/
def scored_items (w : ContextWindow) : List (Nat × ContextItem) :=
  w.items.enum.filter (fun p => !p.2.sticky)

/-- Embeds step 2 of `prune_context`: stable ascending sort by score
(Python `list.sort` is stable; so is insertion sort). -/
def sorted_scored {α : Type} [LinearOrder α] (score : ContextItem → α)
    (w : ContextWindow) : List (Nat × ContextItem) :=
  List.insertionSort (fun p q => score p.2 ≤ score q.2) (scored_items w)

/-- Embeds `target_removal = int(self.token_count * 0.3)`. The Python code
computes `token_count * 0.3` in binary floating point and truncates toward
zero; the model truncates the exact product 3·tc/10 toward zero. -/
def prune_target (w : ContextWindow) : Int :=
  Int.tdiv (3 * w.token_count) 10

/-- Embeds the candidate-accumulation loop of step 3 of `prune_context`:
`for ...: if removed_tokens >= target: break; removed_tokens += cost;
removed_items.append(...)`. `acc` is the running `removed_tokens`. -/
def select_removals (target : Int) :
    List (Nat × ContextItem) → Int → List (Nat × ContextItem)
  | [], _ => []
  | p :: rest, acc =>
    if target ≤ acc then []
    else p :: select_removals target rest (acc + p.2.token_cost)

/-- The removal-candidate set of one `prune_context` call. -/
def prune_candidates {α : Type} [LinearOrder α] (score : ContextItem → α)
    (w : ContextWindow) : List (Nat × ContextItem) :=
  select_removals (prune_target w) (sorted_scored score w) 0

/-- Embeds `ContextWindow.prune_context`. Steps 4–5 of the source pop the
marked indices in descending order, which removes exactly the positions in
the candidate set; the model filters those positions out of the enumerated
list. Step 4 writes a best-effort summary to episodic memory, swallowing
all failures and changing no window state, so it has no model. Returns the
new window and the number of tokens removed. -/
def prune_context {α : Type} [LinearOrder α] (score : ContextItem → α)
    (w : ContextWindow) : ContextWindow × Int :=
  if w.items.isEmpty then (w, 0)
  else if (scored_items w).isEmpty then (w, 0)
  else
    let removed := prune_candidates score w
    let removed_tokens := (removed.map (fun p => p.2.token_cost)).sum
    let removed_idx := removed.map Prod.fst
    let new_items :=
      (w.items.enum.filter
        (fun p => !(decide (p.1 ∈ removed_idx)))).map Prod.snd
    ({ w with
        items := new_items,
        token_count := w.token_count - removed_tokens,
        pruning_count := w.pruning_count + 1 },
      removed_tokens)

/-- Python `task_id or self.current_task_id`: `None` and `""` are falsy. -/
def py_or_task (t : Option String) (cur : Option String) : Option String :=
  match t with
  | none => cur
  | some s => if s = "" then cur else some s

/-- The two mutation lines of `add_item`:
`self.items.append(item); self.token_count += token_cost`. -/
def context_extend (w : ContextWindow) (item : ContextItem) : ContextWindow :=
  { w with items := w.items ++ [item],
           token_count := w.token_count + item.token_cost }

/-- Embeds `ContextWindow.add_item`. `new_id` stands for the generated
uuid; `score` is the relevance ordering in effect if the add triggers
pruning. Returns the window and the created item. -/
def add_item (w : ContextWindow) (new_id : Nat) (itype : ContextItemType)
    (content : String) (cost? : Option Int) (sticky : Bool)
    (task : Option String) (deps : List Nat) (rel : ℚ)
    (score : ContextItem → Int) : ContextWindow × ContextItem :=
  let cost := match cost? with
    | some c => c
    | none => estimate_tokens content
  let item : ContextItem :=
    { id := new_id, item_type := itype, content := content,
      token_cost := cost, sticky := sticky,
      task_id := py_or_task task w.current_task_id,
      dependencies := deps, relevance_score := rel }
  let w1 := context_extend w item
  if should_prune w1 then ((prune_context score w1).1, item) else (w1, item)

/-- Embeds `ContextWindow._count_dependents`. -/
def count_dependents (w : ContextWindow) (item_id : Nat) : Nat :=
  (w.items.filter (fun it => it.dependencies.contains item_id)).length

/-- Embeds the `type_multiplier` table of `_calculate_relevance`. -/
def type_multiplier : ContextItemType → ℚ
  | ContextItemType.system_prompt => 100
  | ContextItemType.task_state => 2
  | ContextItemType.user_message => 3/2
  | ContextItemType.assistant_response => 6/5
  | ContextItemType.tool_result => 4/5
  | ContextItemType.code_snippet => 7/10
  | ContextItemType.knowledge_graph_query => 3/5

/-- Embeds `ContextWindow._calculate_relevance` up to the transcendental
time factor `2^(-age_minutes/60)`, which is passed in as `time_score`.
The result is clamped to [0, 100]. -/
def calculate_relevance (w : ContextWindow) (time_score : ℚ)
    (item : ContextItem) : ℚ :=
  let task_boost : ℚ :=
    match w.current_task_id with
    | none => 1
    | some cur => if item.task_id = some cur then 2 else 1
  let dependency_boost : ℚ := 1 + (count_dependents w item.id : ℚ) * (1/5)
  let score :=
    time_score * task_boost * dependency_boost
      * type_multiplier item.item_type * item.relevance_score
  max 0 (min 100 score)

/-- One call against a `ContextWindow`: the public mutators `add_item`
and `prune_context`. Each call carries the score function realised by the
wall clock and relevance inputs at that moment. -/
inductive CtxOp where
  | add (new_id : Nat) (itype : ContextItemType) (content : String)
      (cost? : Option Int) (sticky : Bool) (task : Option String)
      (deps : List Nat) (rel : ℚ) (score : ContextItem → Int)
  | prune (score : ContextItem → Int)

/-- Run a sequence of `add_item` / `prune_context` calls. -/
def apply_ops : List CtxOp → ContextWindow → ContextWindow
  | [], w => w
  | CtxOp.add i t c k s ta d r f :: rest, w =>
      apply_ops rest (add_item w i t c k s ta d r f).1
  | CtxOp.prune f :: rest, w =>
      apply_ops rest (prune_context f w).1

/-- The token-accounting invariant of the spec. -/
abbrev ctx_inv (w : ContextWindow) : Prop :=
  w.token_count = (w.items.map ContextItem.token_cost).sum

/-!
Episodic store (src/aircher/memory/duckdb_memory.py). The DuckDB tables
are modelled as in-memory lists of rows; SQL string comparison is binary
(code-point) lexicographic order.
-/

/-- Code-point comparison of characters. -/
def char_lt (a b : Char) : Bool := decide (a.toNat < b.toNat)

/-- Lexicographic order on character lists (DuckDB binary collation). -/
def lex_lt : List Char → List Char → Bool
  | [], [] => false
  | [], _ :: _ => true
  | _ :: _, [] => false
  | a :: as, b :: bs => if a = b then lex_lt as bs else char_lt a b

/-- Embeds `file_a < file_b` as evaluated by the SQL engine. -/
def str_lt (a b : String) : Bool := lex_lt a.data b.data

/-- One row of the `file_interactions` table (the columns the co-edit
query reads; `timestamp` is epoch seconds as produced by `EPOCH(...)`). -/
structure FileInteraction where
  timestamp : Int
  session_id : String
  file_path : String
  operation : String
  deriving DecidableEq

/-- Embeds the predicate testing operation membership in the set
containing edit and write. -/
def is_edit_op (op : String) : Bool := op = "edit" || op = "write"

/-- The ON-condition of the self-join in `find_co_edit_patterns`:
same session, `f1.file_path < f2.file_path`, both operations in
{edit, write}, and `EPOCH(f2.timestamp) - EPOCH(f1.timestamp) BETWEEN 0
AND within_seconds`. -/
def co_edit_join_cond (within_seconds : Int) (r1 r2 : FileInteraction) : Bool :=
  decide (r1.session_id = r2.session_id)
    && str_lt r1.file_path r2.file_path
    && is_edit_op r1.operation && is_edit_op r2.operation
    && decide (0 ≤ r2.timestamp - r1.timestamp)
    && decide (r2.timestamp - r1.timestamp ≤ within_seconds)

/-- The grouped keys `(f1.file_path, f2.file_path)` of every joined row
pair satisfying the ON-condition. -/
def co_edit_keys (rows : List FileInteraction) (within_seconds : Int) :
    List (String × String) :=
  ((rows.flatMap (fun r1 => rows.map (fun r2 => (r1, r2)))).filter
    (fun p => co_edit_join_cond within_seconds p.1 p.2)).map
    (fun p => (p.1.file_path, p.2.file_path))

/-- Embeds `GROUP BY f1.file_path, f2.file_path` with `COUNT(*)`. -/
def co_edit_groups (rows : List FileInteraction) (within_seconds : Int) :
    List ((String × String) × Nat) :=
  (co_edit_keys rows within_seconds).dedup.map
    (fun k => (k, (co_edit_keys rows within_seconds).count k))

/-- Embeds `DuckDBMemory.find_co_edit_patterns`: the grouped join rows
with `HAVING COUNT(*) >= min_count`, `ORDER BY co_edit_count DESC`. -/
def find_co_edit_patterns (rows : List FileInteraction) (min_count : Nat)
    (within_seconds : Int) : List ((String × String) × Nat) :=
  List.insertionSort (fun a b => b.2 ≤ a.2)
    ((co_edit_groups rows within_seconds).filter (fun kc => min_count ≤ kc.2))

/-- Follows the words of the C4 claim (for comparison with the source
query): a pair of interactions on files `a` and `b` qualifies when both
operations are in {edit, write}, both rows share a session, and the two
timestamps fall within `within_seconds` OF EACH OTHER (symmetric
distance). The number of qualifying interaction pairs for (a, b). -/
def co_edit_spec_count (rows : List FileInteraction) (within_seconds : Int)
    (a b : String) : Nat :=
  ((rows.flatMap (fun r1 => rows.map (fun r2 => (r1, r2)))).filter
    (fun p => decide (p.1.session_id = p.2.session_id)
      && decide (p.1.file_path = a) && decide (p.2.file_path = b)
      && is_edit_op p.1.operation && is_edit_op p.2.operation
      && decide (-within_seconds ≤ p.2.timestamp - p.1.timestamp)
      && decide (p.2.timestamp - p.1.timestamp ≤ within_seconds))).length

/-- One row of the `task_history` table (the columns the task lifecycle
touches). -/
structure TaskRow where
  task_id : String
  session_id : String
  description : String
  intent : Option String
  status : String
  outcome : Option String
  deriving DecidableEq

/-- Embeds `DuckDBMemory.create_task`: inserts a row with status
`active`. -/
def create_task (db : List TaskRow) (task_id session_id description : String)
    (intent : Option String) : List TaskRow :=
  db ++ [⟨task_id, session_id, description, intent, "active", none⟩]

/-- Embeds `DuckDBMemory.complete_task`: `SELECT COUNT(*)` for the id,
and only if a row exists, an UPDATE setting status to completed and the
outcome on every row with that id; returns the new table and the boolean
`task_exists`. -/
def complete_task (db : List TaskRow) (task_id outcome : String) :
    List TaskRow × Bool :=
  let task_exists := db.any (fun r => decide (r.task_id = task_id))
  (if task_exists then
      db.map (fun r => if r.task_id = task_id then
        { r with status := "completed", outcome := some outcome } else r)
    else db,
   task_exists)

/-!
Model router and cost ledger (src/aircher/models/__init__.py). Python
float costs are modelled as exact rationals.
-/

/-- Embeds `ModelProvider`. -/
inductive ModelProvider where
  | openai
  | anthropic
  | ollama
  | vllm
  | openrouter
  deriving DecidableEq

/-- Embeds `ModelTier`. -/
inductive ModelTier where
  | large
  | medium
  | small
  | local
  deriving DecidableEq

/-- Embeds `ModelConfig`. -/
structure ModelConfig where
  name : String
  provider : ModelProvider
  tier : ModelTier
  cost_per_1k_input : ℚ
  cost_per_1k_output : ℚ
  context_window : Nat
  supports_streaming : Bool := true
  max_retries : Nat := 3
  deriving DecidableEq

/-- Embeds the `SUPPORTED_MODELS` catalog, in source order. -/
def SUPPORTED_MODELS : List (String × ModelConfig) :=
  [("gpt-4o",
    { name := "gpt-4o", provider := ModelProvider.openai,
      tier := ModelTier.medium, cost_per_1k_input := 0.0025,
      cost_per_1k_output := 0.010, context_window := 128000 }),
   ("gpt-4o-mini",
    { name := "gpt-4o-mini", provider := ModelProvider.openai,
      tier := ModelTier.small, cost_per_1k_input := 0.00015,
      cost_per_1k_output := 0.0006, context_window := 128000 }),
   ("gpt-4",
    { name := "gpt-4", provider := ModelProvider.openai,
      tier := ModelTier.large, cost_per_1k_input := 0.03,
      cost_per_1k_output := 0.06, context_window := 8192 }),
   ("claude-opus-4-20250514",
    { name := "claude-opus-4-20250514", provider := ModelProvider.anthropic,
      tier := ModelTier.large, cost_per_1k_input := 0.015,
      cost_per_1k_output := 0.075, context_window := 200000 }),
   ("claude-sonnet-4-20250514",
    { name := "claude-sonnet-4-20250514", provider := ModelProvider.anthropic,
      tier := ModelTier.medium, cost_per_1k_input := 0.003,
      cost_per_1k_output := 0.015, context_window := 200000 }),
   ("claude-haiku-4-20250514",
    { name := "claude-haiku-4-20250514", provider := ModelProvider.anthropic,
      tier := ModelTier.small, cost_per_1k_input := 0.0008,
      cost_per_1k_output := 0.004, context_window := 200000 }),
   ("ollama/llama3.2",
    { name := "ollama/llama3.2", provider := ModelProvider.ollama,
      tier := ModelTier.local, cost_per_1k_input := 0,
      cost_per_1k_output := 0, context_window := 128000 }),
   ("vllm/qwen2.5-32b",
    { name := "vllm/qwen2.5-32b", provider := ModelProvider.vllm,
      tier := ModelTier.medium, cost_per_1k_input := 0,
      cost_per_1k_output := 0, context_window := 32768 }),
   ("vllm/llama-3.3-70b",
    { name := "vllm/llama-3.3-70b", provider := ModelProvider.vllm,
      tier := ModelTier.large, cost_per_1k_input := 0,
      cost_per_1k_output := 0, context_window := 128000 }),
   ("vllm/deepseek-coder-33b",
    { name := "vllm/deepseek-coder-33b", provider := ModelProvider.vllm,
      tier := ModelTier.medium, cost_per_1k_input := 0,
      cost_per_1k_output := 0, context_window := 16384 }),
   ("anthropic/claude-sonnet-4.5",
    { name := "anthropic/claude-sonnet-4.5",
      provider := ModelProvider.openrouter, tier := ModelTier.medium,
      cost_per_1k_input := 0.003, cost_per_1k_output := 0.015,
      context_window := 200000 }),
   ("anthropic/claude-opus-4",
    { name := "anthropic/claude-opus-4",
      provider := ModelProvider.openrouter, tier := ModelTier.large,
      cost_per_1k_input := 0.015, cost_per_1k_output := 0.075,
      context_window := 200000 }),
   ("openai/gpt-4o",
    { name := "openai/gpt-4o", provider := ModelProvider.openrouter,
      tier := ModelTier.medium, cost_per_1k_input := 0.0025,
      cost_per_1k_output := 0.010, context_window := 128000 })]

/-- Embeds `model_name in SUPPORTED_MODELS` and the catalog lookup
`SUPPORTED_MODELS[model_name]`. -/
def lookup_model (model_name : String) : Option ModelConfig :=
  SUPPORTED_MODELS.lookup model_name

/-- Embeds `UsageStats` (the `timestamp` field plays no role in any
claim and is dropped). -/
structure UsageStats where
  input_tokens : Int
  output_tokens : Int
  total_tokens : Int
  estimated_cost : ℚ
  model_name : String
  deriving DecidableEq

/-- Embeds `SessionCostTracker`. `usage_by_model` is the Python dict as
an insertion-ordered association list; keys are unique because the dict
is only ever extended through `add_usage`. -/
structure SessionCostTracker where
  session_id : String
  usage_by_model : List (String × List UsageStats)
  total_cost : ℚ
  deriving DecidableEq

/-- Embeds the dict update of `add_usage` (create the entry when the
key is missing, then append):
append to the (unique) entry of the key, or create the entry at the end
(Python dict insertion order). -/
def dict_append_usage (d : List (String × List UsageStats)) (k : String)
    (u : UsageStats) : List (String × List UsageStats) :=
  match d with
  | [] => [(k, [u])]
  | (k0, l0) :: rest =>
    if k0 = k then (k0, l0 ++ [u]) :: rest
    else (k0, l0) :: dict_append_usage rest k u

/-- Embeds `SessionCostTracker.add_usage`: unknown model names log a
warning and return a zero-cost record without touching the tracker;
known model names compute the cost from the catalog entry, append the
record to the ledger and add the cost to the running total. -/
def add_usage (t : SessionCostTracker) (model_name : String)
    (input_tokens output_tokens : Int) : SessionCostTracker × UsageStats :=
  match lookup_model model_name with
  | none =>
    (t, { input_tokens := input_tokens, output_tokens := output_tokens,
          total_tokens := input_tokens + output_tokens,
          estimated_cost := 0, model_name := model_name })
  | some mc =>
    let input_cost : ℚ := (input_tokens : ℚ) / 1000 * mc.cost_per_1k_input
    let output_cost : ℚ := (output_tokens : ℚ) / 1000 * mc.cost_per_1k_output
    let total : ℚ := input_cost + output_cost
    let usage : UsageStats :=
      { input_tokens := input_tokens, output_tokens := output_tokens,
        total_tokens := input_tokens + output_tokens,
        estimated_cost := total, model_name := model_name }
    ({ t with usage_by_model := dict_append_usage t.usage_by_model model_name usage,
              total_cost := t.total_cost + total },
     usage)

/-- The slice of `ModelRouter` that `track_usage` touches. -/
structure ModelRouter where
  cost_tracker : SessionCostTracker

/-- Embeds `ModelRouter.track_usage`: delegates to
`self.cost_tracker.add_usage`. -/
def track_usage (r : ModelRouter) (model_name : String)
    (input_tokens output_tokens : Int) : SessionCostTracker × UsageStats :=
  add_usage r.cost_tracker model_name input_tokens output_tokens

/-- All usage records stored in the ledger, in dict/list order. -/
def ledger_records (t : SessionCostTracker) : List UsageStats :=
  t.usage_by_model.flatMap Prod.snd

/-- The sum of `estimated_cost` over the stored records. -/
def ledger_sum (t : SessionCostTracker) : ℚ :=
  ((ledger_records t).map UsageStats.estimated_cost).sum

/-- The ledger invariant of claim C10. -/
abbrev tracker_inv (t : SessionCostTracker) : Prop :=
  t.total_cost = ledger_sum t

/-- Run a sequence of `add_usage` calls (model name, input and output
token counts). -/
def apply_usages : List (String × Int × Int) → SessionCostTracker →
    SessionCostTracker
  | [], t => t
  | (m, i, o) :: rest, t => apply_usages rest (add_usage t m i o).1

/-!
Agent state machine (src/aircher/agent/__init__.py) and modes
(src/aircher/modes/__init__.py).
-/

/-- Embeds `AgentMode`. -/
inductive AgentMode where
  | read
  | edit
  | turbo
  deriving DecidableEq

/-- Embeds `ModeCapabilities`. -/
structure ModeCapabilities where
  can_read_files : Bool := true
  can_write_files : Bool := false
  can_execute_commands : Bool := false
  can_spawn_subagents : Bool := false
  requires_confirmation : Bool := false
  deriving DecidableEq

/-- Embeds the static `MODE_CAPABILITIES` table via
`get_mode_capabilities`. -/
def get_mode_capabilities : AgentMode → ModeCapabilities
  | AgentMode.read =>
    { can_read_files := true, can_write_files := false,
      can_execute_commands := false, can_spawn_subagents := true,
      requires_confirmation := false }
  | AgentMode.edit =>
    { can_read_files := true, can_write_files := true,
      can_execute_commands := false, can_spawn_subagents := false,
      requires_confirmation := true }
  | AgentMode.turbo =>
    { can_read_files := true, can_write_files := true,
      can_execute_commands := true, can_spawn_subagents := true,
      requires_confirmation := false }

/-- Embeds `AircherAgent._get_required_capability`. -/
def get_required_capability (intent : String) : String :=
  if intent = "read" ∨ intent = "search" ∨ intent = "general" then
    "can_read_files"
  else if intent = "write" ∨ intent = "execute" then "can_write_files"
  else if intent = "delete" then "can_execute_commands"
  else "can_read_files"

/-- Embeds `AircherAgent._has_capability`:
`getattr(capabilities, required_capability, False)`. -/
def has_capability (caps : ModeCapabilities) (req : String) : Bool :=
  if req = "can_read_files" then caps.can_read_files
  else if req = "can_write_files" then caps.can_write_files
  else if req = "can_execute_commands" then caps.can_execute_commands
  else if req = "can_spawn_subagents" then caps.can_spawn_subagents
  else if req = "requires_confirmation" then caps.requires_confirmation
  else false

/-- The slice of `AgentState` that the permission stage reads and
writes: the declared mode, the classified intent, the boolean entries of
the `context` dict, and the response text. -/
structure AgentState where
  current_mode : AgentMode
  intent : String
  context : List (String × Bool)
  response : String
  deriving DecidableEq

/-- Embeds `state.context.get(key)` with dict truthiness (missing key is
falsy). -/
def ctx_flag (ctx : List (String × Bool)) (k : String) : Bool :=
  (ctx.lookup k).getD false

/-- Embeds `AircherAgent._validate_permissions`: on denial only the
response text is set; on success `context["permissions_validated"] =
True`. -/
def validate_permissions (st : AgentState) : AgentState :=
  let caps := get_mode_capabilities st.current_mode
  let req := get_required_capability st.intent
  if !(has_capability caps req) then
    { st with response :=
        "Permission denied: " ++ st.intent ++ " operations require " ++ req }
  else
    { st with context := ("permissions_validated", true) :: st.context }

/-- Embeds `AircherAgent._route_after_permissions`. -/
def route_after_permissions (st : AgentState) : String :=
  if ctx_flag st.context "permissions_validated" then "continue" else "denied"

/-- The conditional-edge table installed after `validate_permissions` in
`_build_graph`. -/
def permissions_edge (route : String) : Option String :=
  List.lookup route
    [("continue", "select_tools"), ("denied", "generate_response")]

/-- ASCII `str.lower` on one character (every keyword and test string
here is ASCII). -/
def ascii_lower (c : Char) : Char :=
  if 65 ≤ c.toNat ∧ c.toNat ≤ 90 then Char.ofNat (c.toNat + 32) else c

/-- Tests whether `needle` is at the head of `hay`. -/
def list_starts_with : List Char → List Char → Bool
  | _, [] => true
  | [], _ :: _ => false
  | c :: cs, d :: ds => c = d && list_starts_with cs ds

/-- Python substring test `needle in hay`. -/
def contains_sub : List Char → List Char → Bool
  | [], needle => needle.isEmpty
  | c :: rest, needle =>
    list_starts_with (c :: rest) needle || contains_sub rest needle

/-- Embeds `any(word in request_lower for word in words)`. -/
def contains_any (hay : List Char) (words : List String) : Bool :=
  words.any (fun w => contains_sub hay w.data)

/-- Embeds `AircherAgent._classify_intent_simple`: ordered keyword-set
matching over the lower-cased request. -/
def classify_intent_simple (request : String) : String :=
  let request_lower := request.data.map ascii_lower
  if contains_any request_lower
      ["read", "show", "list", "display", "what", "how"] then "read"
  else if contains_any request_lower
      ["write", "create", "modify", "change", "update", "add"] then "write"
  else if contains_any request_lower
      ["search", "find", "look for", "grep"] then "search"
  else if contains_any request_lower ["delete", "remove", "clean"] then
    "delete"
  else if contains_any request_lower ["run", "execute", "build", "test"] then
    "execute"
  else "general"

/-- One row of `get_tool_statistics` as read by `_classify_intent`. -/
structure ToolStat where
  tool_name : String
  total_calls : Nat
  deriving DecidableEq

/-- The side-channel annotation `_classify_intent` builds from the
statistics: the three most-used tool names (stable descending sort by
`total_calls`, as `sorted(..., reverse=True)[:3]`). -/
def most_used_tools (stats : List ToolStat) : List String :=
  ((List.insertionSort (fun a b => b.total_calls ≤ a.total_calls)
    stats).take 3).map ToolStat.tool_name

/-- Embeds `AircherAgent._classify_intent`. `mem_lookup` models the
Episodic Store consultation: `none` when no memory is attached,
`Except.error` when `get_tool_statistics` raises (the `except` branch
logs and keeps going), `Except.ok stats` on success. Returns the
classified intent and the optional side-channel annotation. -/
def classify_intent (request : String)
    (mem_lookup : Option (Except Unit (List ToolStat))) :
    String × Option (List String) :=
  let intent := classify_intent_simple request
  let annotation? :=
    match mem_lookup with
    | none => none
    | some (Except.error _) => none
    | some (Except.ok stats) =>
      if stats.isEmpty then none else some (most_used_tools stats)
  (intent, annotation?)

/-!
File-path extraction and the rule-based fallback planner. The Python
function `re.findall` returns the text of capture group 1 when the pattern has
exactly one group, otherwise the whole match; the three pattern
matchers below reproduce that, including greedy backtracking and
non-overlapping left-to-right scanning.
-/

/-- The character class `[\w/\.\-]` (ASCII). -/
def is_class_char (c : Char) : Bool :=
  c.isAlphanum || c = '_' || c = '/' || c = '.' || c = '-'

/-- Length of the maximal `[\w/\.\-]*` prefix. -/
def class_run : List Char → Nat
  | [] => 0
  | c :: rest => if is_class_char c then class_run rest + 1 else 0

/-- The alternation `(py|rs|js|ts|md|json|yaml|yml|toml|txt)` in source
order. -/
def exts : List String :=
  ["py", "rs", "js", "ts", "md", "json", "yaml", "yml", "toml", "txt"]

/-- First alternative of `exts` that matches at this position. -/
def first_ext (l : List Char) : Option (List Char) :=
  (exts.map String.data).find? (fun e => list_starts_with l e)

/-- Greedy backtracking for `[\w/\.\-]+\.(py|...)` anchored at the head
of `l`: try first-part lengths `k, k-1, ..., 1`; succeed when the char
at the first-part end is `.` and an extension matches right after.
Returns the full-match length and the captured group. -/
def p1_back (l : List Char) : Nat → Option (Nat × List Char)
  | 0 => none
  | Nat.succ km =>
    match l.get? (km + 1) with
    | some c =>
      if c = '.' then
        match first_ext (l.drop (km + 2)) with
        | some e => some (km + 2 + e.length, e)
        | none => p1_back l km
      else p1_back l km
    | none => p1_back l km

/-- Pattern 1 match attempt at the head of `l`. -/
def p1_at (l : List Char) : Option (Nat × List Char) :=
  p1_back l (class_run l)

/-- Pattern 2 `/[\w/\.\-]+` match attempt at the head of `l`. -/
def p2_at : List Char → Option (Nat × List Char)
  | [] => none
  | c :: rest =>
    if c = '/' then
      let r := class_run rest
      if 1 ≤ r then some (1 + r, '/' :: rest.take r) else none
    else none

/-- Tests `1 ≤ k ≤ hi` with a slash at `l[k]` for some `k` (backtracking of the
first `+` of pattern 3; any hit yields the same full-match extent). -/
def has_slash_between (l : List Char) : Nat → Bool
  | 0 => false
  | Nat.succ km =>
    if l.get? (km + 1) = some '/' then true else has_slash_between l km

/-- Pattern 3 `[\w/\.\-]+/[\w/\.\-]+` match attempt at the head of `l`:
the greedy match covers the whole class run provided a `/` sits at some
inner position `1 ≤ k ≤ run-2`. -/
def p3_at (l : List Char) : Option (Nat × List Char) :=
  let r := class_run l
  if 3 ≤ r ∧ has_slash_between l (r - 2) then some (r, l.take r) else none

/-- Non-overlapping left-to-right `re.findall` scan: `skip` counts
characters still covered by the previous match. -/
def findall_scan (pat : List Char → Option (Nat × List Char)) :
    List Char → Nat → List (List Char)
  | [], _ => []
  | _ :: rest, Nat.succ sk => findall_scan pat rest sk
  | c :: rest, 0 =>
    match pat (c :: rest) with
    | some (len, g) => g :: findall_scan pat rest (len - 1)
    | none => findall_scan pat rest 0

/-- Embeds the `re.findall` calls of `_extract_file_paths`, in source
order: pattern 1 contributes its CAPTURE GROUP (the bare extension),
patterns 2 and 3 contribute whole matches. -/
def extract_matches (text : String) : List String :=
  (findall_scan p1_at text.data 0).map (fun l => String.mk l)
    ++ (findall_scan p2_at text.data 0).map (fun l => String.mk l)
    ++ (findall_scan p3_at text.data 0).map (fun l => String.mk l)

/-- The `set()` of strings `_extract_file_paths` accumulates, as its
canonical first-occurrence enumeration. `list(set(...))` enumerates
these elements in a hash-seed-dependent order, so any permutation of
this list is a possible return value of `_extract_file_paths`. -/
def extract_file_paths_set (text : String) : List String :=
  (extract_matches text).dedup

/-- One planned tool call of the fallback planner. -/
structure ToolCall where
  tool : String
  params : List (String × String)
  reasoning : String
  deriving DecidableEq

/-- Embeds `AircherAgent._generate_tool_plan_fallback`, given the list
`file_paths = self._extract_file_paths(request)` in the order the
Python set iteration produced (`file_paths[:1]` keeps its first
element). -/
def generate_tool_plan_fallback (intent : String) (file_paths : List String)
    (caps : ModeCapabilities) : List ToolCall :=
  if intent = "read" ∧ caps.can_read_files then
    (file_paths.take 1).map (fun p =>
      { tool := "read_file", params := [("path", p)],
        reasoning := "User requested to read file" })
  else if intent = "write" ∧ caps.can_write_files then
    (file_paths.take 1).map (fun p =>
      { tool := "write_file", params := [("path", p), ("content", "")],
        reasoning := "User requested to write file" })
  else if intent = "search" ∧ caps.can_read_files then
    [{ tool := "search_files", params := [("pattern", ""), ("path", ".")],
       reasoning := "User requested to search" }]
  else []

/-! Helper lemmas about one `prune_context` call. -/

theorem select_removals_sublist (t : Int) :
    ∀ (l : List (Nat × ContextItem)) (a : Int),
      (select_removals t l a).Sublist l := by
  intro l
  induction l with
  | nil => intro a; simp [select_removals]
  | cons p rest ih =>
    intro a
    by_cases h : t ≤ a
    · simp [select_removals, h]
    · simpa [select_removals, h] using (ih (a + p.2.token_cost)).cons₂ p

theorem sorted_scored_perm {α : Type} [LinearOrder α] (score : ContextItem → α)
    (w : ContextWindow) : (sorted_scored score w).Perm (scored_items w) :=
  List.perm_insertionSort _ _

theorem prune_candidates_mem {α : Type} [LinearOrder α]
    (score : ContextItem → α) (w : ContextWindow) {p : Nat × ContextItem}
    (hp : p ∈ prune_candidates score w) :
    p ∈ w.items.enum ∧ p.2.sticky = false := by
  have h1 : p ∈ sorted_scored score w :=
    (select_removals_sublist _ _ _).mem hp
  have h2 : p ∈ scored_items w := (sorted_scored_perm score w).mem_iff.mp h1
  have h3 := List.mem_filter.mp h2
  refine ⟨h3.1, ?_⟩
  simpa using h3.2

theorem enum_fst_nodup {β : Type} (l : List β) :
    (l.enum.map Prod.fst).Nodup := by
  rw [List.enum_map_fst]; exact List.nodup_range _

theorem prune_candidates_fst_nodup {α : Type} [LinearOrder α]
    (score : ContextItem → α) (w : ContextWindow) :
    ((prune_candidates score w).map Prod.fst).Nodup := by
  have hscored : ((scored_items w).map Prod.fst).Nodup :=
    ((List.filter_sublist w.items.enum).map Prod.fst).nodup (enum_fst_nodup _)
  have hsorted : ((sorted_scored score w).map Prod.fst).Nodup :=
    (((sorted_scored_perm score w).map Prod.fst).nodup_iff).mpr hscored
  exact ((select_removals_sublist _ _ _).map Prod.fst).nodup hsorted

theorem prune_candidates_perm_filter {α : Type} [LinearOrder α]
    (score : ContextItem → α) (w : ContextWindow) :
    (w.items.enum.filter
      (fun p => decide (p.1 ∈ (prune_candidates score w).map Prod.fst))).Perm
      (prune_candidates score w) := by
  have hEfst : (w.items.enum.map Prod.fst).Nodup := enum_fst_nodup _
  have hE : w.items.enum.Nodup := List.Nodup.of_map Prod.fst hEfst
  have hRfst := prune_candidates_fst_nodup score w
  have hR : (prune_candidates score w).Nodup := List.Nodup.of_map Prod.fst hRfst
  have hsubE : ∀ p ∈ prune_candidates score w, p ∈ w.items.enum :=
    fun p hp => (prune_candidates_mem score w hp).1
  rw [List.perm_ext_iff_of_nodup (hE.filter _) hR]
  intro p
  simp only [List.mem_filter, decide_eq_true_eq, List.mem_map]
  constructor
  · rintro ⟨hpE, q, hqR, hq1⟩
    have hpq : p = q :=
      List.inj_on_of_nodup_map hEfst hpE (hsubE q hqR) hq1.symm
    exact hpq ▸ hqR
  · intro hpR
    exact ⟨hsubE p hpR, p, hpR, rfl⟩

theorem prune_context_accounting {α : Type} [LinearOrder α]
    (score : ContextItem → α) (w : ContextWindow) :
    (prune_context score w).1.token_count
        = w.token_count - (prune_context score w).2 ∧
      ((prune_context score w).1.items.map ContextItem.token_cost).sum
        = (w.items.map ContextItem.token_cost).sum - (prune_context score w).2 := by
  by_cases h0 : w.items.isEmpty
  · simp [prune_context, h0]
  · by_cases h1 : (scored_items w).isEmpty
    · simp [prune_context, h0, h1]
    · have hres1 : (prune_context score w).1 = { w with
          items := (w.items.enum.filter
            (fun p : Nat × ContextItem => !(decide (p.1 ∈
              (prune_candidates score w).map Prod.fst)))).map Prod.snd,
          token_count := w.token_count - ((prune_candidates score w).map
            (fun p : Nat × ContextItem => p.2.token_cost)).sum,
          pruning_count := w.pruning_count + 1 } := by
        simp [prune_context, h0, h1]
      have hres2 : (prune_context score w).2
          = ((prune_candidates score w).map
              (fun p : Nat × ContextItem => p.2.token_cost)).sum := by
        simp [prune_context, h0, h1]
      have hsplit := List.filter_append_perm
        (fun p : Nat × ContextItem => decide (p.1 ∈
          (prune_candidates score w).map Prod.fst))
        w.items.enum
      have hsum := (hsplit.map
        (fun p : Nat × ContextItem => p.2.token_cost)).sum_eq
      rw [List.map_append, List.sum_append] at hsum
      have hremoved :=
        ((prune_candidates_perm_filter score w).map
          (fun p : Nat × ContextItem => p.2.token_cost)).sum_eq
      have htot : (w.items.enum.map
          (fun p : Nat × ContextItem => p.2.token_cost)).sum
          = (w.items.map ContextItem.token_cost).sum := by
        have hmm : w.items.enum.map (fun p : Nat × ContextItem => p.2.token_cost)
            = (w.items.enum.map Prod.snd).map ContextItem.token_cost := by
          rw [List.map_map]; rfl
        rw [hmm, List.enum_map_snd]
      constructor
      · rw [hres1, hres2]
      · rw [hres1, hres2]
        have hmapped : ((((w.items.enum.filter
            (fun p : Nat × ContextItem => !(decide (p.1 ∈
              (prune_candidates score w).map Prod.fst)))).map Prod.snd).map
              ContextItem.token_cost)).sum
            = ((w.items.enum.filter
                (fun p : Nat × ContextItem => !(decide (p.1 ∈
                  (prune_candidates score w).map Prod.fst)))).map
                (fun p : Nat × ContextItem => p.2.token_cost)).sum := by
          rw [List.map_map]; rfl
        simp only []
        rw [hmapped]
        rw [htot] at hsum
        rw [hremoved] at hsum
        omega

theorem prune_context_inv {α : Type} [LinearOrder α]
    (score : ContextItem → α) (w : ContextWindow) (h : ctx_inv w) :
    ctx_inv (prune_context score w).1 := by
  have hacc := prune_context_accounting score w
  unfold ctx_inv at *
  omega

theorem context_extend_inv (w : ContextWindow) (item : ContextItem)
    (h : ctx_inv w) : ctx_inv (context_extend w item) := by
  unfold ctx_inv context_extend at *
  simp [List.sum_append, h]

theorem add_item_inv (w : ContextWindow) (new_id : Nat)
    (itype : ContextItemType) (content : String) (cost? : Option Int)
    (sticky : Bool) (task : Option String) (deps : List Nat) (rel : ℚ)
    (score : ContextItem → Int) (h : ctx_inv w) :
    ctx_inv (add_item w new_id itype content cost? sticky task deps rel score).1 := by
  unfold add_item
  dsimp only
  split
  · exact prune_context_inv _ _ (context_extend_inv _ _ h)
  · exact context_extend_inv _ _ h

theorem select_removals_all (t : Int) :
    ∀ (l : List (Nat × ContextItem)) (a : Int),
      (∀ p ∈ l, 0 ≤ p.2.token_cost) →
      a + (l.map (fun p : Nat × ContextItem => p.2.token_cost)).sum < t →
      select_removals t l a = l := by
  intro l
  induction l with
  | nil => intro a _ _; rfl
  | cons p rest ih =>
    intro a hpos hlt
    have hp0 : 0 ≤ p.2.token_cost := hpos p (List.mem_cons_self p rest)
    have hrest0 : 0 ≤ ((rest.map
        (fun p : Nat × ContextItem => p.2.token_cost)).sum) :=
      List.sum_nonneg (by
        intro x hx
        obtain ⟨q, hq, hqx⟩ := List.mem_map.mp hx
        exact hqx ▸ hpos q (List.mem_cons_of_mem p hq))
    have hna : ¬ t ≤ a := by
      simp only [List.map_cons, List.sum_cons] at hlt
      omega
    simp only [select_removals, hna, if_false]
    congr 1
    apply ih
    · intro q hq; exact hpos q (List.mem_cons_of_mem p hq)
    · simp only [List.map_cons, List.sum_cons] at hlt
      omega

theorem select_removals_sum_ge (t : Int) :
    ∀ (l : List (Nat × ContextItem)) (a : Int),
      min t (a + (l.map (fun p : Nat × ContextItem => p.2.token_cost)).sum)
        ≤ a + ((select_removals t l a).map
            (fun p : Nat × ContextItem => p.2.token_cost)).sum := by
  intro l
  induction l with
  | nil => intro a; simp [select_removals]
  | cons p rest ih =>
    intro a
    by_cases hta : t ≤ a
    · simp only [select_removals, hta, if_true]
      simp only [List.map_nil, List.sum_nil, add_zero]
      exact le_trans (min_le_left _ _) hta
    · simp only [select_removals, hta, if_false, List.map_cons, List.sum_cons]
      have := ih (a + p.2.token_cost)
      omega

theorem scored_items_map_snd (w : ContextWindow) :
    (scored_items w).map Prod.snd = w.items.filter (fun it => !it.sticky) := by
  unfold scored_items
  rw [show (fun p : Nat × ContextItem => !p.2.sticky)
      = ((fun it : ContextItem => !it.sticky) ∘ Prod.snd) from rfl]
  rw [← List.map_filter, List.enum_map_snd]

theorem scored_items_cost_sum (w : ContextWindow) :
    ((scored_items w).map (fun p : Nat × ContextItem => p.2.token_cost)).sum
      = ((w.items.filter (fun it => !it.sticky)).map
          ContextItem.token_cost).sum := by
  rw [← scored_items_map_snd, List.map_map]
  rfl

theorem sorted_scored_cost_sum {α : Type} [LinearOrder α]
    (score : ContextItem → α) (w : ContextWindow) :
    ((sorted_scored score w).map
        (fun p : Nat × ContextItem => p.2.token_cost)).sum
      = ((w.items.filter (fun it => !it.sticky)).map
          ContextItem.token_cost).sum := by
  rw [((sorted_scored_perm score w).map
    (fun p : Nat × ContextItem => p.2.token_cost)).sum_eq]
  exact scored_items_cost_sum w

theorem prune_context_sticky_mem {α : Type} [LinearOrder α]
    (score : ContextItem → α) (w : ContextWindow) :
    ∀ it ∈ w.items, it.sticky = true → it ∈ (prune_context score w).1.items := by
  intro it hit hsticky
  by_cases h0 : w.items.isEmpty
  · simpa [prune_context, h0] using hit
  · by_cases h1 : (scored_items w).isEmpty
    · simpa [prune_context, h0, h1] using hit
    · obtain ⟨n, hn, hget⟩ := List.mem_iff_getElem.mp hit
      have henumlen : n < w.items.enum.length := by
        simpa [List.enum_length] using hn
      have hpair : (n, it) ∈ w.items.enum := by
        have hg := List.getElem_enum w.items n henumlen
        have hm : w.items.enum[n] ∈ w.items.enum := List.getElem_mem _
        rw [hg, hget] at hm
        exact hm
      have hnotR : ¬ (n ∈ (prune_candidates score w).map Prod.fst) := by
        intro hmem
        obtain ⟨q, hqR, hq1⟩ := List.mem_map.mp hmem
        have hqE := (prune_candidates_mem score w hqR).1
        have hq2 := (prune_candidates_mem score w hqR).2
        have hqeq : q = (n, it) :=
          List.inj_on_of_nodup_map (enum_fst_nodup _) hqE hpair (by simpa using hq1)
        rw [hqeq] at hq2
        simp only [] at hq2
        rw [hsticky] at hq2
        exact Bool.true_eq_false.mp hq2
      have hres1 : (prune_context score w).1.items
          = (w.items.enum.filter
              (fun p : Nat × ContextItem => !(decide (p.1 ∈
                (prune_candidates score w).map Prod.fst)))).map Prod.snd := by
        simp [prune_context, h0, h1]
      rw [hres1]
      exact List.mem_map.mpr
        ⟨(n, it), List.mem_filter.mpr ⟨hpair, by simp [hnotR]⟩, rfl⟩

/-- C1: for every `ContextWindow` and every sequence of `add_item` /
`prune_context` calls (any token costs, sticky flags and relevance
inputs), after each call the `token_count` of the window equals the sum of
`token_cost` over the items currently in `items`. -/
theorem C1_token_accounting (ops : List CtxOp) (w : ContextWindow)
    (h : ctx_inv w) : ctx_inv (apply_ops ops w) := by
  induction ops generalizing w with
  | nil => exact h
  | cons op rest ih =>
    cases op with
    | add i t c k s ta d r f =>
      exact ih _ (add_item_inv w i t c k s ta d r f h)
    | prune f => exact ih _ (prune_context_inv f w h)

/-- Witness for C1 at a concrete window and call sequence. -/
theorem C1_token_accounting_witness :
    ctx_inv (⟨"s", none,
        [⟨0, ContextItemType.tool_result, "x", 2, false, none, [], 1⟩,
         ⟨1, ContextItemType.code_snippet, "y", 3, false, none, [], 1⟩],
        5, 100, 1, 0⟩ : ContextWindow)
      ∧ ctx_inv (apply_ops [CtxOp.prune (fun _ => 0)]
        (⟨"s", none,
          [⟨0, ContextItemType.tool_result, "x", 2, false, none, [], 1⟩,
           ⟨1, ContextItemType.code_snippet, "y", 3, false, none, [], 1⟩],
          5, 100, 1, 0⟩ : ContextWindow)) :=
  ⟨by decide, C1_token_accounting _ _ (by decide)⟩

/-- C2: a sticky item is never in the removal-candidate set of
`prune_context` and is still in the items list afterwards, for every
relevance scoring. -/
theorem C2_sticky_invariant {α : Type} [LinearOrder α]
    (score : ContextItem → α) (w : ContextWindow) :
    (∀ p ∈ prune_candidates score w, p.2.sticky = false) ∧
    (∀ it ∈ w.items, it.sticky = true →
      it ∈ (prune_context score w).1.items) :=
  ⟨fun _ hp => (prune_candidates_mem score w hp).2,
   prune_context_sticky_mem score w⟩

/-- Witness for C2: a concrete sticky item survives a concrete prune. -/
theorem C2_sticky_invariant_witness :
    (⟨0, ContextItemType.system_prompt, "sys", 5, true, none, [], 1⟩ : ContextItem)
      ∈ (prune_context (fun _ => (0 : Int))
        (⟨"s", none,
          [⟨0, ContextItemType.system_prompt, "sys", 5, true, none, [], 1⟩,
           ⟨1, ContextItemType.tool_result, "x", 1, false, none, [], 1⟩],
          6, 100, 1, 0⟩ : ContextWindow)).1.items :=
  (C2_sticky_invariant (fun _ => (0 : Int)) _).2 _ (by decide) rfl

/-- C3 (amended): `prune_context` always returns (it is a total
function); the tokens removed are at least the integer-truncated target
`int(0.3 * pre-prune token_count)` whenever the non-sticky items can
cover that target, otherwise every non-sticky token is removed; if all
items are sticky it returns 0. (The exact-30% bound of the original claim
fails because the code truncates the target to an integer and stops as
soon as the truncated target is reached.) -/
theorem C3_prune_amount {α : Type} [LinearOrder α]
    (score : ContextItem → α) (w : ContextWindow)
    (hcost : ∀ it ∈ w.items, 0 ≤ it.token_cost) :
    (prune_target w ≤ ((w.items.filter (fun it => !it.sticky)).map
        ContextItem.token_cost).sum →
      prune_target w ≤ (prune_context score w).2) ∧
    (((w.items.filter (fun it => !it.sticky)).map
        ContextItem.token_cost).sum < prune_target w →
      (prune_context score w).2
        = ((w.items.filter (fun it => !it.sticky)).map
            ContextItem.token_cost).sum) ∧
    ((∀ it ∈ w.items, it.sticky = true) → (prune_context score w).2 = 0) := by
  by_cases h0 : w.items.isEmpty
  · have hnil : w.items = [] := List.isEmpty_iff.mp h0
    refine ⟨?_, ?_, ?_⟩ <;> simp [prune_context, h0, hnil]
  · by_cases h1 : (scored_items w).isEmpty
    · have hns : w.items.filter (fun it => !it.sticky) = [] := by
        rw [← scored_items_map_snd, List.isEmpty_iff.mp h1]
        rfl
      refine ⟨?_, ?_, ?_⟩ <;> simp [prune_context, h0, h1, hns]
    · have hres2 : (prune_context score w).2
          = ((prune_candidates score w).map
              (fun p : Nat × ContextItem => p.2.token_cost)).sum := by
        simp [prune_context, h0, h1]
      have hsortnn : ∀ p ∈ sorted_scored score w, 0 ≤ p.2.token_cost := by
        intro p hp
        have hp2 : p ∈ scored_items w :=
          (sorted_scored_perm score w).mem_iff.mp hp
        have hpE : p ∈ w.items.enum := (List.mem_filter.mp hp2).1
        have : p.2 ∈ w.items := by
          rw [← List.enum_map_snd w.items]
          exact List.mem_map.mpr ⟨p, hpE, rfl⟩
        exact hcost p.2 this
      have hsum := sorted_scored_cost_sum score w
      refine ⟨?_, ?_, ?_⟩
      · intro hle
        rw [hres2]
        have hge := select_removals_sum_ge (prune_target w)
          (sorted_scored score w) 0
        rw [zero_add, zero_add, hsum] at hge
        calc prune_target w
            = min (prune_target w)
              (((w.items.filter (fun it => !it.sticky)).map
                ContextItem.token_cost).sum) := (min_eq_left hle).symm
          _ ≤ _ := hge
      · intro hlt
        rw [hres2]
        have hall := select_removals_all (prune_target w)
          (sorted_scored score w) 0 hsortnn (by rw [zero_add, hsum]; exact hlt)
        rw [show prune_candidates score w
            = select_removals (prune_target w) (sorted_scored score w) 0
            from rfl, hall, hsum]
      · intro hallsticky
        exfalso
        have : scored_items w = [] := by
          apply List.filter_eq_nil.mpr
          intro p hpE
          have : p.2 ∈ w.items := by
            rw [← List.enum_map_snd w.items]
            exact List.mem_map.mpr ⟨p, hpE, rfl⟩
          simp [hallsticky p.2 this]
        rw [this] at h1
        exact h1 rfl

/-- Witness for C3 at a concrete window: two non-sticky items of costs
1 and 4, pre-prune total 5, truncated target 1. -/
theorem C3_prune_amount_witness :
    prune_target (⟨"s", none,
        [⟨0, ContextItemType.tool_result, "x", 1, false, none, [], 1⟩,
         ⟨1, ContextItemType.code_snippet, "y", 4, false, none, [], 1⟩],
        5, 100, 1, 0⟩ : ContextWindow)
      ≤ (prune_context (fun _ => (0 : Int))
        (⟨"s", none,
          [⟨0, ContextItemType.tool_result, "x", 1, false, none, [], 1⟩,
           ⟨1, ContextItemType.code_snippet, "y", 4, false, none, [], 1⟩],
          5, 100, 1, 0⟩ : ContextWindow)).2 :=
  (C3_prune_amount (fun _ => (0 : Int)) _ (by decide)).1 (by decide)

/-- Counterexample to C3 as stated: a window holding a single non-sticky
item of cost 1 (pre-prune total 1). No sticky item blocks removal, yet
`prune_context` removes 0 tokens, which is less than 30% of the total
(10·0 < 3·1). The truncated target `int(0.3 * 1) = 0` is reached
immediately, so the loop removes nothing. -/
theorem C3_prune_amount_cex :
    (∀ it ∈ (⟨"s", none,
        [⟨0, ContextItemType.tool_result, "x", 1, false, none, [], 1⟩],
        1, 100, 1, 0⟩ : ContextWindow).items, it.sticky = false)
      ∧ 10 * (prune_context (fun _ => (0 : Int))
          (⟨"s", none,
            [⟨0, ContextItemType.tool_result, "x", 1, false, none, [], 1⟩],
            1, 100, 1, 0⟩ : ContextWindow)).2
        < 3 * (⟨"s", none,
            [⟨0, ContextItemType.tool_result, "x", 1, false, none, [], 1⟩],
            1, 100, 1, 0⟩ : ContextWindow).token_count := by
  constructor
  · decide
  · decide

/-! Helper lemmas for the co-edit query. -/

theorem char_lt_asymm {a b : Char} (h : char_lt a b = true) :
    char_lt b a = false := by
  simp only [char_lt, decide_eq_true_eq] at h
  simp only [char_lt, decide_eq_false_iff_not]
  omega

theorem lex_lt_asymm : ∀ (as bs : List Char),
    lex_lt as bs = true → lex_lt bs as = false := by
  intro as
  induction as with
  | nil =>
    intro bs h
    cases bs with
    | nil => simp [lex_lt] at h
    | cons b bs => simp [lex_lt]
  | cons a as ih =>
    intro bs h
    cases bs with
    | nil => simp [lex_lt] at h
    | cons b bs =>
      by_cases hab : a = b
      · subst hab
        simp only [lex_lt, if_pos rfl] at h ⊢
        exact ih bs h
      · have hba : ¬ b = a := fun hh => hab hh.symm
        simp only [lex_lt, if_neg hab] at h
        simp only [lex_lt, if_neg hba]
        exact char_lt_asymm h

theorem str_lt_asymm {a b : String} (h : str_lt a b = true) :
    str_lt b a = false :=
  lex_lt_asymm a.data b.data h

theorem co_edit_key_lt (rows : List FileInteraction) (w : Int)
    {k : String × String} (hk : k ∈ co_edit_keys rows w) :
    str_lt k.1 k.2 = true := by
  unfold co_edit_keys at hk
  obtain ⟨pr, hpr, he⟩ := List.mem_map.mp hk
  have hc := (List.mem_filter.mp hpr).2
  simp only [co_edit_join_cond, Bool.and_eq_true] at hc
  have := hc.1.1.1.1.2
  rw [← he]
  exact this

theorem co_edit_groups_mem (rows : List FileInteraction) (w : Int)
    {p : (String × String) × Nat} (hp : p ∈ co_edit_groups rows w) :
    p.2 = (co_edit_keys rows w).count p.1
      ∧ p.1 ∈ co_edit_keys rows w := by
  unfold co_edit_groups at hp
  obtain ⟨k, hk, he⟩ := List.mem_map.mp hp
  have h1 : p.1 = k := by rw [← he]
  have h2 : p.2 = (co_edit_keys rows w).count k := by rw [← he]
  exact ⟨h1 ▸ h2, h1 ▸ List.mem_dedup.mp hk⟩

theorem co_edit_groups_fst_nodup (rows : List FileInteraction) (w : Int) :
    ((co_edit_groups rows w).map Prod.fst).Nodup := by
  unfold co_edit_groups
  rw [List.map_map]
  have hcomp : (Prod.fst ∘ fun k : String × String =>
      (k, (co_edit_keys rows w).count k)) = id := rfl
  rw [hcomp, List.map_id]
  exact List.nodup_dedup _

/-- C4 (amended): `find_co_edit_patterns` returns at most one row per
unordered pair, presented with `file_a < file_b` in binary collation;
a pair is counted once for each same-session pair of interactions with
both operations in {edit, write} whose timestamps satisfy the
ASYMMETRIC window condition `0 ≤ t(file_b) − t(file_a) ≤
window_seconds` (the interaction on the lexicographically larger file
must be at or after the one on the smaller file — not merely "within
the window of each other"); only groups with count ≥ `min_count`
appear, ordered descending by count. -/
theorem C4_co_edit_patterns (rows : List FileInteraction) (min_count : Nat)
    (w : Int) :
    (∀ p ∈ find_co_edit_patterns rows min_count w,
      str_lt p.1.1 p.1.2 = true) ∧
    ((find_co_edit_patterns rows min_count w).map Prod.fst).Nodup ∧
    (∀ p ∈ find_co_edit_patterns rows min_count w,
      ∀ q ∈ find_co_edit_patterns rows min_count w,
        p.1 = (q.1.2, q.1.1) → False) ∧
    (∀ p ∈ find_co_edit_patterns rows min_count w,
      p.2 = (co_edit_keys rows w).count p.1 ∧ min_count ≤ p.2) ∧
    (∀ k ∈ co_edit_keys rows w,
      min_count ≤ (co_edit_keys rows w).count k →
      (k, (co_edit_keys rows w).count k)
        ∈ find_co_edit_patterns rows min_count w) ∧
    List.Sorted (fun a b : (String × String) × Nat => b.2 ≤ a.2)
      (find_co_edit_patterns rows min_count w) := by
  have hperm : (find_co_edit_patterns rows min_count w).Perm
      ((co_edit_groups rows w).filter (fun kc => min_count ≤ kc.2)) :=
    List.perm_insertionSort _ _
  have hmemgrp : ∀ p ∈ find_co_edit_patterns rows min_count w,
      p ∈ co_edit_groups rows w ∧ min_count ≤ p.2 := by
    intro p hp
    have := List.mem_filter.mp (hperm.mem_iff.mp hp)
    exact ⟨this.1, by simpa using this.2⟩
  have hkey : ∀ p ∈ find_co_edit_patterns rows min_count w,
      str_lt p.1.1 p.1.2 = true := by
    intro p hp
    exact co_edit_key_lt rows w (co_edit_groups_mem rows w (hmemgrp p hp).1).2
  refine ⟨hkey, ?_, ?_, ?_, ?_, ?_⟩
  · have hfil : (((co_edit_groups rows w).filter
        (fun kc => min_count ≤ kc.2)).map Prod.fst).Nodup :=
      ((List.filter_sublist (co_edit_groups rows w)).map Prod.fst).nodup
        (co_edit_groups_fst_nodup rows w)
    exact ((hperm.map Prod.fst).nodup_iff).mpr hfil
  · intro p hp q hq hpq
    have h1 := hkey p hp
    have h2 := hkey q hq
    rw [hpq] at h1
    simp only [] at h1
    rw [str_lt_asymm h2] at h1
    exact Bool.false_ne_true h1
  · intro p hp
    exact ⟨(co_edit_groups_mem rows w (hmemgrp p hp).1).1, (hmemgrp p hp).2⟩
  · intro k hk hcount
    apply hperm.mem_iff.mpr
    apply List.mem_filter.mpr
    refine ⟨?_, by simpa using hcount⟩
    unfold co_edit_groups
    exact List.mem_map.mpr ⟨k, List.mem_dedup.mpr hk, rfl⟩
  · haveI hTot : IsTotal ((String × String) × Nat)
        (fun a b => b.2 ≤ a.2) := ⟨fun a b => le_total b.2 a.2⟩
    haveI hTrans : IsTrans ((String × String) × Nat)
        (fun a b => b.2 ≤ a.2) := ⟨fun _ _ _ hab hbc => le_trans hbc hab⟩
    exact List.sorted_insertionSort _ _

/-- Counterexample to C4 as stated: one session edits `b.py` at t = 0
and `a.py` at t = 10. The two timestamps are within 300 seconds of each
other, the operations are edits, and `a.py < b.py`, so by the claim the
pair should be reported with count 1 ≥ min_count 1 — but the time
condition of the query demands `t(b.py) − t(a.py) ∈ [0, 300]`, which fails
(it is −10), and no row is returned. -/
theorem C4_co_edit_patterns_cex :
    find_co_edit_patterns
        [⟨0, "s", "b.py", "edit"⟩, ⟨10, "s", "a.py", "edit"⟩] 1 300 = []
      ∧ co_edit_spec_count
          [⟨0, "s", "b.py", "edit"⟩, ⟨10, "s", "a.py", "edit"⟩] 300
          "a.py" "b.py" = 1
      ∧ str_lt "a.py" "b.py" = true := by
  refine ⟨by decide, by decide, by decide⟩

/-- Witness for C4 at a concrete store: the qualifying ordered pair is
reported. -/
theorem C4_co_edit_patterns_witness :
    (("a.py", "b.py"),
        (co_edit_keys
          [⟨0, "s", "a.py", "edit"⟩, ⟨10, "s", "b.py", "write"⟩]
          300).count ("a.py", "b.py"))
      ∈ find_co_edit_patterns
          [⟨0, "s", "a.py", "edit"⟩, ⟨10, "s", "b.py", "write"⟩] 1 300 :=
  (C4_co_edit_patterns
    [⟨0, "s", "a.py", "edit"⟩, ⟨10, "s", "b.py", "write"⟩] 1
    300).2.2.2.2.1 ("a.py", "b.py") (by decide) (by decide)

/-- C5 (evidence of the code bug): for the request `"Show me
src/main.py"` (intent `read`, read capability enabled), the candidate
set built by `_extract_file_paths` is {"py", "/main.py",
"src/main.py"}, not {"src/main.py"}: the first regex has a capture
group, so `re.findall` yields only the extension `"py"`, and the
absolute-path regex also matches the suffix `"/main.py"`.
`list(set(...))` enumerates this set in a hash-seed-dependent order and
the fallback keeps only its first element, so a run in which `"py"`
comes first plans exactly one `read_file` call with path `"py"` —
contradicting the claimed plan `{path: "src/main.py"}`. -/
theorem C5_fallback_extraction :
    classify_intent_simple "Show me src/main.py" = "read"
      ∧ extract_file_paths_set "Show me src/main.py"
          = ["py", "/main.py", "src/main.py"]
      ∧ generate_tool_plan_fallback "read" ["py", "/main.py", "src/main.py"]
          (get_mode_capabilities AgentMode.read)
        = [{ tool := "read_file", params := [("path", "py")],
             reasoning := "User requested to read file" }]
      ∧ generate_tool_plan_fallback "read" ["src/main.py", "py", "/main.py"]
          (get_mode_capabilities AgentMode.read)
        = [{ tool := "read_file", params := [("path", "src/main.py")],
             reasoning := "User requested to read file" }] := by
  refine ⟨by decide, by decide, by decide, by decide⟩

/-- Counterexample to C6 as stated: create task `t1`, complete it
(returns `true`), complete it again — the source only checks row
EXISTENCE (`SELECT COUNT(*) ... WHERE task_id = ?`), not the status, so
the second call re-updates the row and returns `true` again instead of
a not-found/no-op indicator. -/
theorem C6_complete_task_cex :
    (complete_task (create_task [] "t1" "s1" "d" none) "t1" "done").2 = true
      ∧ (complete_task
          (complete_task (create_task [] "t1" "s1" "d" none) "t1" "done").1
          "t1" "done").2 = true := by
  refine ⟨by decide, by decide⟩

/-- C6 (amended): `complete_task` returns `true` exactly when a row
with the task id exists — in particular the first completion after
`create_task` returns `true`, a SECOND completion of the same id also
returns `true` (the row still exists and is re-updated; completion is
idempotent on the stored state but not signalled as a no-op), and
completing a task id that was never created returns `false` rather than
raising. -/
theorem C6_complete_task (db : List TaskRow) (task_id outcome : String) :
    ((complete_task db task_id outcome).2
        = db.any (fun r => decide (r.task_id = task_id))) ∧
    ((∀ r ∈ db, r.task_id ≠ task_id) →
      (complete_task db task_id outcome).2 = false) ∧
    (∀ (sid desc : String) (intent : Option String),
      (complete_task (create_task db task_id sid desc intent)
        task_id outcome).2 = true) ∧
    (∀ db2 : List TaskRow, (complete_task db2 task_id outcome).2 = true →
      (complete_task (complete_task db2 task_id outcome).1
        task_id outcome).2 = true) := by
  refine ⟨rfl, ?_, ?_, ?_⟩
  · intro hnone
    simp only [complete_task]
    apply List.any_eq_false.mpr
    intro r hr
    simpa using hnone r hr
  · intro sid desc intent
    simp only [complete_task, create_task]
    apply List.any_eq_true.mpr
    exact ⟨⟨task_id, sid, desc, intent, "active", none⟩,
      List.mem_append_right _ (List.mem_singleton.mpr rfl), by simp⟩
  · intro db2 h2
    simp only [complete_task] at h2 ⊢
    obtain ⟨r, hr, hrt⟩ := List.any_eq_true.mp h2
    rw [h2]
    simp only [if_true]
    apply List.any_eq_true.mpr
    refine ⟨if r.task_id = task_id then
        { r with status := "completed", outcome := some outcome } else r,
      List.mem_map.mpr ⟨r, hr, rfl⟩, ?_⟩
    have ht : r.task_id = task_id := by simpa using hrt
    simp [ht]

/-- Witness for C6: first completion after creation succeeds at a
concrete store. -/
theorem C6_complete_task_witness :
    (complete_task (create_task [] "t9" "s9" "desc" none) "t9" "ok").2
      = true :=
  (C6_complete_task [] "t9" "ok").2.2.1 "s9" "desc" none

/-- C7: `validate_permissions` derives the required capability from the
intent exactly as the table in the claim states, looks it up in the static
mode table, and on a missing capability the conditional edge routes the
turn straight to `generate_response` with a denial response (skipping
`select_tools`, hence `execute_task`); with the capability present it
routes to `select_tools`. -/
theorem C7_permission_gate (st : AgentState)
    (hfresh : ctx_flag st.context "permissions_validated" = false) :
    (get_required_capability "read" = "can_read_files"
      ∧ get_required_capability "search" = "can_read_files"
      ∧ get_required_capability "general" = "can_read_files"
      ∧ get_required_capability "write" = "can_write_files"
      ∧ get_required_capability "execute" = "can_write_files"
      ∧ get_required_capability "delete" = "can_execute_commands") ∧
    (has_capability (get_mode_capabilities st.current_mode)
        (get_required_capability st.intent) = false →
      route_after_permissions (validate_permissions st) = "denied"
        ∧ permissions_edge (route_after_permissions (validate_permissions st))
            = some "generate_response"
        ∧ (validate_permissions st).response
            = "Permission denied: " ++ st.intent ++ " operations require "
              ++ get_required_capability st.intent) ∧
    (has_capability (get_mode_capabilities st.current_mode)
        (get_required_capability st.intent) = true →
      route_after_permissions (validate_permissions st) = "continue"
        ∧ permissions_edge (route_after_permissions (validate_permissions st))
            = some "select_tools") := by
  refine ⟨⟨rfl, rfl, rfl, rfl, rfl, rfl⟩, ?_, ?_⟩
  · intro hno
    have hv : validate_permissions st = { st with response :=
        ("Permission denied: " ++ st.intent ++ " operations require "
          ++ get_required_capability st.intent) } := by
      simp [validate_permissions, hno]
    rw [hv]
    refine ⟨?_, ?_, rfl⟩
    · simp [route_after_permissions, hfresh]
    · simp [route_after_permissions, hfresh]
      rfl
  · intro hyes
    have hv : validate_permissions st = { st with context :=
        (("permissions_validated", true) :: st.context) } := by
      simp [validate_permissions, hyes]
    rw [hv]
    refine ⟨?_, ?_⟩
    · simp [route_after_permissions, ctx_flag, List.lookup]
    · simp [route_after_permissions, ctx_flag, List.lookup]
      rfl

/-- Witness for C7: intent `delete` in mode `edit` (no
`can_execute_commands`) is routed to the denial edge. -/
theorem C7_permission_gate_witness :
    route_after_permissions
        (validate_permissions ⟨AgentMode.edit, "delete", [], ""⟩)
      = "denied" :=
  ((C7_permission_gate ⟨AgentMode.edit, "delete", [], ""⟩ rfl).2.1
    (by decide)).1

/-! Helper lemmas for the cost ledger. -/

theorem dict_append_usage_len (k : String) (u : UsageStats) :
    ∀ d : List (String × List UsageStats),
      ((dict_append_usage d k u).flatMap Prod.snd).length
        = (d.flatMap Prod.snd).length + 1 := by
  intro d
  induction d with
  | nil => simp [dict_append_usage]
  | cons kv rest ih =>
    by_cases hk : kv.1 = k
    · simp [dict_append_usage, hk]
      omega
    · simp [dict_append_usage, hk, ih]
      omega

theorem dict_append_usage_sum (k : String) (u : UsageStats) :
    ∀ d : List (String × List UsageStats),
      (((dict_append_usage d k u).flatMap Prod.snd).map
          UsageStats.estimated_cost).sum
        = ((d.flatMap Prod.snd).map UsageStats.estimated_cost).sum
            + u.estimated_cost := by
  intro d
  induction d with
  | nil => simp [dict_append_usage]
  | cons kv rest ih =>
    by_cases hk : kv.1 = k
    · simp [dict_append_usage, hk]
      ring
    · simp [dict_append_usage, hk, ih]
      ring

theorem add_usage_inv (t : SessionCostTracker) (m : String) (i o : Int)
    (h : tracker_inv t) : tracker_inv (add_usage t m i o).1 := by
  unfold tracker_inv at *
  cases hm : lookup_model m with
  | none => simp [add_usage, hm, h]
  | some mc =>
    simp only [add_usage, hm]
    unfold ledger_sum ledger_records at *
    simp only []
    rw [dict_append_usage_sum]
    simp only []
    rw [h]

/-- C8 (amended): `track_usage` delegates to `add_usage` and never
raises (both are total functions). For a model in the catalog the
returned record carries cost `(input/1000)·cost_per_1k_input +
(output/1000)·cost_per_1k_output`, the record is appended to the
session ledger and the running total grows by that cost. For a model
name NOT in the catalog a zero-cost record is returned after a logged
warning, but the record is NOT appended: the ledger and the total are
left unchanged. -/
theorem C8_track_usage (t : SessionCostTracker) (m : String) (i o : Int) :
    (track_usage ⟨t⟩ m i o = add_usage t m i o) ∧
    (lookup_model m = none →
      (add_usage t m i o).1 = t
        ∧ (add_usage t m i o).2 = ⟨i, o, i + o, 0, m⟩) ∧
    (∀ mc, lookup_model m = some mc →
      (add_usage t m i o).2
          = ⟨i, o, i + o,
              (i : ℚ) / 1000 * mc.cost_per_1k_input
                + (o : ℚ) / 1000 * mc.cost_per_1k_output, m⟩
        ∧ (add_usage t m i o).1.total_cost
            = t.total_cost + ((i : ℚ) / 1000 * mc.cost_per_1k_input
                + (o : ℚ) / 1000 * mc.cost_per_1k_output)
        ∧ (ledger_records (add_usage t m i o).1).length
            = (ledger_records t).length + 1) := by
  refine ⟨rfl, ?_, ?_⟩
  · intro hm
    simp [add_usage, hm]
  · intro mc hm
    refine ⟨?_, ?_, ?_⟩
    · simp [add_usage, hm]
    · simp [add_usage, hm]
    · simp only [add_usage, hm]
      unfold ledger_records
      simp only []
      rw [dict_append_usage_len]

/-- Witness for C8: tracking 1000 input and 2000 output tokens of
`gpt-4o` adds `1·0.0025 + 2·0.010` to the (initially zero) total. -/
theorem C8_track_usage_witness :
    (add_usage ⟨"s", [], 0⟩ "gpt-4o" 1000 2000).1.total_cost
      = (0 : ℚ) + ((1000 : ℚ) / 1000 * 0.0025 + (2000 : ℚ) / 1000 * 0.010) :=
  ((C8_track_usage ⟨"s", [], 0⟩ "gpt-4o" 1000 2000).2.2 _ rfl).2.1

/-- C9: two-run determinism of intent classification — the classified
intent is the same for any two Episodic-Store lookup outcomes (missing
memory, raised lookup, any statistics contents), and equals the pure
keyword classifier of the request text. -/
theorem C9_intent_deterministic (request : String)
    (m1 m2 : Option (Except Unit (List ToolStat))) :
    (classify_intent request m1).1 = (classify_intent request m2).1
      ∧ (classify_intent request m1).1 = classify_intent_simple request :=
  ⟨rfl, rfl⟩

/-- C10: the ledger invariant — after any sequence of `add_usage`
calls on a tracker satisfying it, `total_cost` equals the sum of
`estimated_cost` over all records stored in `usage_by_model`; and an
`add_usage` with a model name outside the catalog returns a record but
leaves the tracker (ledger and total) unchanged. -/
theorem C10_ledger_invariant (t : SessionCostTracker) (h : tracker_inv t)
    (calls : List (String × Int × Int)) :
    tracker_inv (apply_usages calls t)
      ∧ (∀ (m : String) (i o : Int), lookup_model m = none →
          (add_usage t m i o).1 = t) := by
  constructor
  · induction calls generalizing t with
    | nil => exact h
    | cons c rest ih =>
      exact ih _ (add_usage_inv t c.1 c.2.1 c.2.2 h)
  · intro m i o hm
    simp [add_usage, hm]

/-- Witness for C10 at a concrete tracker and call sequence (one
catalog model, one unknown model). -/
theorem C10_ledger_invariant_witness :
    tracker_inv (apply_usages [("gpt-4o", 5, 7), ("no-such-model", 1, 1)]
      ⟨"s", [], 0⟩) :=
  (C10_ledger_invariant ⟨"s", [], 0⟩ rfl
    [("gpt-4o", 5, 7), ("no-such-model", 1, 1)]).1

/-- Counterexample to C8 as stated: tracking usage of a model name that
is not in the catalog returns a zero-cost record, but the usage is NOT
tracked — the tracker is returned unchanged, with an empty ledger. -/
theorem C8_track_usage_cex :
    lookup_model "unknown-model" = none
      ∧ (add_usage ⟨"s", [], 0⟩ "unknown-model" 5 7).1
          = (⟨"s", [], 0⟩ : SessionCostTracker)
      ∧ (add_usage ⟨"s", [], 0⟩ "unknown-model" 5 7).2
          = ⟨5, 7, 12, 0, "unknown-model"⟩
      ∧ ledger_records (add_usage ⟨"s", [], 0⟩ "unknown-model" 5 7).1 = [] := by
  refine ⟨rfl, rfl, rfl, rfl⟩
